import Mathlib

/-!
Shallow embedding of `bridge/gitlab/config.go` from x0rzkov/git-bug.

The Go code is translated function by function.  Strings are modelled as
Lean `String` (a list of characters); all relevant inputs are ASCII, where
Go's byte-level operations and the character-level operations used here
agree.  Fallible Go functions return `Except`/`Option`; the out-of-bounds
string indexing `objectUrl.Path[1:]` (which panics in Go when `Path` is
empty) is modelled by an explicit `panicked` outcome.
-/

namespace GitBugGitlab

/-! ## Go string primitives -/

/-- Go `strings.TrimSuffix s suffix`: removes one trailing occurrence. -/
def goTrimSuffix (s suffix : String) : String :=
  if suffix.toList.isSuffixOf s.toList then
    (s.toList.take (s.toList.length - suffix.toList.length)).asString
  else s

/-- Go `strings.Replace s old new 1` for nonempty `old`:
replace the first occurrence of `old` (anywhere in `s`) by `new`. -/
def replaceFirstList (pat rep : List Char) : List Char → List Char
  | [] => []
  | c :: cs =>
    if pat.isPrefixOf (c :: cs) then rep ++ (c :: cs).drop pat.length
    else c :: replaceFirstList pat rep cs

def goReplaceFirst (s pat rep : String) : String :=
  (replaceFirstList pat.toList rep.toList s.toList).asString

/-- The ASCII part of Go `unicode.IsSpace` (Go also trims some rare
Unicode spaces; all inputs considered here are ASCII). -/
def isGoSpace (c : Char) : Bool :=
  c = ' ' || c = '\t' || c = '\n' || c = '\r' || c = '\x0b' || c = '\x0c'

/-- Go `strings.TrimSpace`. -/
def goTrimSpace (s : String) : String :=
  ((s.toList.dropWhile isGoSpace).reverse.dropWhile isGoSpace).reverse.asString

/-- Go `strings.HasPrefix`. -/
def goHasPrefixStr (s pre : String) : Bool :=
  pre.toList.isPrefixOf s.toList

def parseDigitsAux : List Char → Nat → Option Nat
  | [], acc => some acc
  | c :: cs, acc =>
    if c.isDigit then parseDigitsAux cs (acc * 10 + (c.toNat - 48)) else none

/-- Go `strconv.Atoi`: optional sign, then decimal digits only.
(64-bit overflow, which Go reports as an error, is not modelled; all
inputs of interest are small.) -/
def goAtoi (s : String) : Option Int :=
  match s.toList with
  | [] => none
  | '+' :: cs =>
    match cs with
    | [] => none
    | _ => (parseDigitsAux cs 0).map Int.ofNat
  | '-' :: cs =>
    match cs with
    | [] => none
    | _ => (parseDigitsAux cs 0).map fun n => -(n : Int)
  | cs => (parseDigitsAux cs 0).map Int.ofNat

def firstIndexOfCh (c : Char) : List Char → Option Nat
  | [] => none
  | x :: xs => if x = c then some 0 else (firstIndexOfCh c xs).map (· + 1)

def lastIndexOfCh (c : Char) : List Char → Option Nat
  | [] => none
  | x :: xs =>
    match lastIndexOfCh c xs with
    | some i => some (i + 1)
    | none => if x = c then some 0 else none

/-- Go `split(s, sep, false)`: cut at the first occurrence of `sep`,
keeping `sep` at the head of the second component. -/
def splitAtFirst (sep : Char) (s : List Char) : List Char × List Char :=
  match firstIndexOfCh sep s with
  | none => (s, [])
  | some i => (s.take i, s.drop i)

/-! ## Model of Go `net/url.Parse` (the fields `getProjectPath` reads)

Faithful to `net/url` for the URL shapes reachable from this bridge:
control-character rejection, scheme extraction, query/fragment cutting,
opaque URLs, authority splitting with userinfo, port validation, host
character validation, and percent-escape validation/decoding.  The IPv6
zone identifier is unescaped together with the rest of the host (this
differs from Go only for percent-escaped zone identifiers). -/

structure GoURL where
  scheme : String
  opaqueData : String
  host : String
  path : String
deriving DecidableEq

def hasCTL (cs : List Char) : Bool :=
  cs.any fun c => c.toNat < 0x20 || c.toNat == 0x7f

def isSchemeAlpha (c : Char) : Bool :=
  ('a' ≤ c && c ≤ 'z') || ('A' ≤ c && c ≤ 'Z')

/-- Go `getScheme`: `none` models the "missing protocol scheme" error;
`some (scheme, rest)` otherwise (empty scheme when the string has none). -/
def getSchemeAux (orig : List Char) : List Char → List Char → Option (List Char × List Char)
  | _, [] => some ([], orig)
  | seen, c :: cs =>
    if isSchemeAlpha c then getSchemeAux orig (seen ++ [c]) cs
    else if c.isDigit || c = '+' || c = '-' || c = '.' then
      if seen = [] then some ([], orig) else getSchemeAux orig (seen ++ [c]) cs
    else if c = ':' then
      if seen = [] then none else some (seen, cs)
    else some ([], orig)

def goGetScheme (s : List Char) : Option (List Char × List Char) :=
  getSchemeAux s [] s

/-- Go `validOptionalPort`. -/
def validOptionalPort : List Char → Bool
  | [] => true
  | ':' :: rest => rest.all Char.isDigit
  | _ => false

def isHexDigit (c : Char) : Bool :=
  c.isDigit || ('a' ≤ c && c ≤ 'f') || ('A' ≤ c && c ≤ 'F')

def hexVal (c : Char) : Nat :=
  if c.isDigit then c.toNat - 48
  else if 'a' ≤ c && c ≤ 'f' then c.toNat - 87
  else c.toNat - 55

/-- Characters Go's `shouldEscape(_, encodeHost)` leaves unescaped
(bytes ≥ 0x80 pass through Go's check as well). -/
def hostCharOK (c : Char) : Bool :=
  c.isAlphanum || c = '-' || c = '_' || c = '.' || c = '~' ||
  c = '!' || c = '$' || c = '&' || c = '\'' || c = '(' || c = ')' ||
  c = '*' || c = '+' || c = ',' || c = ';' || c = '=' || c = ':' ||
  c = '[' || c = ']' || c = '<' || c = '>' || c = '"' || c.toNat ≥ 0x80

/-- Go `unescape(s, encodeHost)`: rejects invalid escapes, escapes below
`%80` other than `%25`, and host-invalid characters. -/
def unescapeHost : List Char → Option (List Char)
  | [] => some []
  | '%' :: c1 :: c2 :: rest =>
    if isHexDigit c1 && isHexDigit c2 then
      if hexVal c1 < 8 && !(c1 = '2' && c2 = '5') then none
      else (unescapeHost rest).map fun r => Char.ofNat (hexVal c1 * 16 + hexVal c2) :: r
    else none
  | ['%'] => none
  | ['%', _] => none
  | c :: rest =>
    if hostCharOK c then (unescapeHost rest).map (c :: ·) else none

/-- Go `unescape` in a mode that rejects nothing but malformed escapes
(used for paths, fragments and userinfo). -/
def unescapeAny : List Char → Option (List Char)
  | [] => some []
  | '%' :: c1 :: c2 :: rest =>
    if isHexDigit c1 && isHexDigit c2 then
      (unescapeAny rest).map fun r => Char.ofNat (hexVal c1 * 16 + hexVal c2) :: r
    else none
  | ['%'] => none
  | ['%', _] => none
  | c :: rest => (unescapeAny rest).map (c :: ·)

/-- Go `validUserinfo` (non-ASCII runes are rejected by Go as well). -/
def userinfoCharOK (c : Char) : Bool :=
  c.isAlphanum || c = '-' || c = '.' || c = '_' || c = ':' || c = '~' ||
  c = '!' || c = '$' || c = '&' || c = '\'' || c = '(' || c = ')' ||
  c = '*' || c = '+' || c = ',' || c = ';' || c = '=' || c = '%' || c = '@'

/-- Go `parseHost`: port validation, then host unescaping/validation. -/
def parseHost (host : List Char) : Option (List Char) :=
  match host with
  | '[' :: _ =>
    match lastIndexOfCh ']' host with
    | none => none
    | some i =>
      if validOptionalPort (host.drop (i + 1)) then unescapeHost host else none
  | _ =>
    match lastIndexOfCh ':' host with
    | none => unescapeHost host
    | some i =>
      if validOptionalPort (host.drop i) then unescapeHost host else none

/-- Go `parseAuthority`: returns the host (the userinfo is validated and
discarded; `GoURL` does not retain it). -/
def parseAuthority (authority : List Char) : Option (List Char) :=
  match lastIndexOfCh '@' authority with
  | none => parseHost authority
  | some i =>
    match parseHost (authority.drop (i + 1)) with
    | none => none
    | some h =>
      let userinfo := authority.take i
      if userinfo.all userinfoCharOK then
        if (unescapeAny userinfo).isSome then some h else none
      else none

/-- Go `parse(u, viaRequest := false)` on the fragment-stripped input. -/
def goParseNoFrag (u : List Char) : Option GoURL :=
  if hasCTL u then none
  else if u = ['*'] then some ⟨"", "", "", "*"⟩
  else
    match goGetScheme u with
    | none => none
    | some (schemeCs, rest0) =>
      let scheme := (schemeCs.map Char.toLower).asString
      let rest :=
        if rest0.getLast? = some '?' ∧ firstIndexOfCh '?' rest0.dropLast = none
        then rest0.dropLast
        else (splitAtFirst '?' rest0).1
      if rest.head? ≠ some '/' ∧ scheme ≠ "" then
        some ⟨scheme, rest.asString, "", ""⟩
      else if rest.head? ≠ some '/' ∧ firstIndexOfCh ':' (splitAtFirst '/' rest).1 ≠ none then
        none
      else if rest.take 2 = ['/', '/'] ∧ (scheme ≠ "" ∨ rest.take 3 ≠ ['/', '/', '/']) then
        let auth := (splitAtFirst '/' (rest.drop 2)).1
        let rest2 := (splitAtFirst '/' (rest.drop 2)).2
        match parseAuthority auth with
        | none => none
        | some h =>
          match unescapeAny rest2 with
          | none => none
          | some p => some ⟨scheme, "", h.asString, p.asString⟩
      else
        match unescapeAny rest with
        | none => none
        | some p => some ⟨scheme, "", "", p.asString⟩

/-- Go `url.Parse`: cut the fragment, parse the remainder, validate the
fragment's escapes. -/
def goURLParse (s : String) : Option GoURL :=
  let cs := s.toList
  let cut := match firstIndexOfCh '#' cs with
    | none => (cs, ([] : List Char))
    | some i => (cs.take i, cs.drop (i + 1))
  match goParseNoFrag cut.1 with
  | none => none
  | some url => if (unescapeAny cut.2).isSome then some url else none

/-! ## `getProjectPath` and remote discovery (config.go, lines 296-319) -/

/-- Outcome of `getProjectPath`: `panicked` models the Go runtime panic
raised by `objectUrl.Path[1:]` when `Path` is empty. -/
inductive PathResult
  | ok (path : String)
  | badProjectURL
  | panicked
deriving DecidableEq

/-- The cleaning steps of `getProjectPath` (lines 297-298). -/
def cleanProjectUrl (projectUrl : String) : String :=
  goReplaceFirst (goTrimSuffix projectUrl ".git") "git@" "https://"

/-- `getProjectPath` (lines 296-305). -/
def getProjectPath (projectUrl : String) : PathResult :=
  match goURLParse (cleanProjectUrl projectUrl) with
  | none => .badProjectURL
  | some objectUrl =>
    if objectUrl.path = "" then .panicked
    else .ok (objectUrl.path.drop 1)

/-- A Go computation that may panic. -/
inductive GoPanicOr (α : Type)
  | ok (a : α)
  | panicked
deriving DecidableEq

/-- `getValidGitlabRemoteURLs` (lines 307-319).  The Go map of remotes
is modelled as an association list in iteration order; a panic inside
`getProjectPath` propagates. -/
def getValidGitlabRemoteURLs : List (String × String) → GoPanicOr (List String)
  | [] => .ok []
  | (_, u) :: rest =>
    match getProjectPath u with
    | .panicked => .panicked
    | .badProjectURL => getValidGitlabRemoteURLs rest
    | .ok path =>
      match getValidGitlabRemoteURLs rest with
      | .panicked => .panicked
      | .ok urls => .ok (("gitlab.com" ++ path) :: urls)

/-! ## Credentials (collaborators from `bridge/core/auth`, not under src/) -/

inductive CredentialKind
  | token
  | loginPassword
deriving DecidableEq

/-- Modelled from the spec: a Credential is "a tagged union over
credential kinds"; the `bridge/core/auth` package is not under src/.
`tgt` models the target-service tag, `value` the opaque secret. -/
structure Credential where
  kind : CredentialKind
  userId : String
  tgt : String
  value : String
deriving DecidableEq

/-- Modelled from the spec: a Credential's "stable identifier (derived
from content, not random)" is "a pure function of its content, so two
credentials with identical (user, target, secret) collapse to the same
identifier". -/
def Credential.id (c : Credential) : String :=
  (match c.kind with
   | .token => "token"
   | .loginPassword => "login-password")
    ++ ":" ++ c.userId ++ ":" ++ c.tgt ++ ":" ++ c.value

/-- `auth.NewToken` (creation time is not modelled; it does not enter
the identifier and is only displayed). -/
def newToken (userId value tgt : String) : Credential :=
  ⟨.token, userId, tgt, value⟩

/-- Modelled from the spec: the fixed target tag of this bridge
(`target` constant in gitlab.go, not under src/). -/
def target : String := "gitlab"

/-- Modelled from the spec: the placeholder `auth.DefaultUserId`
("to be filled" user id). -/
def defaultUserId : String := "default-user-id"

/-- Modelled from the spec: the service's public domain as default URL
(`defaultBaseURL` constant in gitlab.go, not under src/). -/
def defaultBaseURL : String := "https://gitlab.com/"

/-- Modelled from the spec: configuration key names, `{target,
projectId, baseUrl}` (constants defined outside src/). -/
def configKeyTarget : String := "target"

def keyProjectID : String := "projectId"

def keyGitlabBaseUrl : String := "baseUrl"

/-- `auth.IdExist`: existence check by identifier against the stored
credential list. -/
def idExist (store : List Credential) (i : String) : Bool :=
  store.any fun c => decide (c.id = i)

/-- `auth.List repo (WithUserId userId) (WithTarget target)
(WithKind KindToken)`: filter the store. -/
def authList (store : List Credential) (uid tgt : String) : List Credential :=
  store.filter fun c => decide (c.userId = uid ∧ c.tgt = tgt ∧ c.kind = .token)

/-- Byte-lexicographic string order used by `sort.Sort(auth.ById creds)`
(UTF-8 byte order and code-point order coincide). -/
def charListLe : List Char → List Char → Bool
  | [], _ => true
  | _ :: _, [] => false
  | a :: as, b :: bs => if a < b then true else if b < a then false else charListLe as bs

def credIdLe (c d : Credential) : Bool := charListLe c.id.toList d.id.toList

def insertById (c : Credential) : List Credential → List Credential
  | [] => [c]
  | d :: ds => if credIdLe c d then c :: d :: ds else d :: insertById c ds

/-- `sort.Sort (auth.ById creds)`: ascending by identifier. -/
def sortById (creds : List Credential) : List Credential :=
  creds.foldr insertById []

/-! ## Errors of the Configure flow -/

inductive ConfError
  | missingURLForCredential
  | gettingRemotes
  | baseURLMismatch
  | identityFailure
  | credentialLoad
  | credentialUserMismatch
  | ioRead
  | onlyTokenCredentials
  | badProjectURLErr
  | remoteLookupFailed
  | invalidConfiguration
deriving DecidableEq

/-! ## Interactive prompts (config.go, lines 144-294)

Interactive console input is modelled as the list of lines remaining on
stdin; reading from an exhausted stdin models the Go read error
(`ioRead`).  Each prompt returns the value together with the unread
remainder of stdin. -/

def isTokenClassChar (c : Char) : Bool :=
  ('a' ≤ c && c ≤ 'z') || ('A' ≤ c && c ≤ 'Z') || ('0' ≤ c && c ≤ '9') || c = '-'

/-- The regular expression `^[a-zA-Z0-9\-]{20}` from `promptToken`,
applied via `MatchString`: consume 20 class characters from the start
(there is no end anchor in the source pattern). -/
def matchTokenAux : Nat → List Char → Bool
  | 0, _ => true
  | _ + 1, [] => false
  | n + 1, c :: cs => if isTokenClassChar c then matchTokenAux n cs else false

def tokenRegexMatches (s : String) : Bool :=
  matchTokenAux 20 s.toList

/-- `promptToken` (lines 206-233): re-prompt until the trimmed line
matches the regular expression. -/
def promptToken : List String → Except ConfError (String × List String)
  | [] => .error .ioRead
  | line :: rest =>
    let token := goTrimSpace line
    if tokenRegexMatches token then .ok (token, rest)
    else promptToken rest

/-- The shared tail of both `auth.NewToken` returns inside
`promptTokenOptions` (lines 153-157 and 195-199). -/
def tokenEntry (userId : String) (stdin : List String) :
    Except ConfError (Credential × List String) :=
  (promptToken stdin).map fun p => (newToken userId p.1 target, p.2)

/-- `promptTokenOptions` (lines 144-204). -/
def promptTokenOptions (store : List Credential) (userId : String) :
    List String → Except ConfError (Credential × List String)
  | [] =>
    if (authList store userId target).isEmpty then tokenEntry userId []
    else .error .ioRead
  | line :: rest =>
    let creds := authList store userId target
    if creds.isEmpty then tokenEntry userId (line :: rest)
    else
      let sorted := sortById creds
      match goAtoi (goTrimSpace line) with
      | none => promptTokenOptions store userId rest
      | some index =>
        if index < 1 ∨ index > (creds.length : Int) + 1 then
          promptTokenOptions store userId rest
        else if index = 1 then tokenEntry userId rest
        else .ok (sorted.getD (index.toNat - 2) (newToken "" "" ""), rest)

/-- Manual URL entry loop of `promptURL` (lines 278-293). -/
def promptURLManual : List String → Except ConfError (String × List String)
  | [] => .error .ioRead
  | line :: rest =>
    let url := goTrimSpace line
    if url = "" then promptURLManual rest else .ok (url, rest)

/-- Candidate selection loop of `promptURL` (lines 244-274); choosing 0
breaks out to manual entry. -/
def promptURLSelect (validRemotes : List String) :
    List String → Except ConfError (String × List String)
  | [] => .error .ioRead
  | line :: rest =>
    match goAtoi (goTrimSpace line) with
    | none => promptURLSelect validRemotes rest
    | some index =>
      if index < 0 ∨ index > (validRemotes.length : Int) then
        promptURLSelect validRemotes rest
      else if index = 0 then promptURLManual rest
      else .ok (validRemotes.getD (index.toNat - 1) "", rest)

/-- `promptURL` (lines 235-294): remote discovery, then selection or
manual entry.  `remotesResult` models `repo.GetRemotes()`. -/
def promptURL (remotesResult : Except Unit (List (String × String)))
    (stdin : List String) :
    GoPanicOr (Except ConfError (String × List String)) :=
  match remotesResult with
  | .error _ => .ok (.error .gettingRemotes)
  | .ok remotes =>
    match getValidGitlabRemoteURLs remotes with
    | .panicked => .panicked
    | .ok validRemotes =>
      if validRemotes.isEmpty then .ok (promptURLManual stdin)
      else .ok (promptURLSelect validRemotes stdin)

/-! ## The `Configure` flow (config.go, lines 31-142)

External collaborators (repository remotes, identity provider, the
credential store, `auth.LoadWithPrefix`, and the remote API client built
by `buildClient`/`Projects.GetProject`) are supplied through `Env`.
Each Go `if err != nil { return nil, err }` is a bind on `GoResult`. -/

/-- `core.BridgeParams` (the fields Configure reads). -/
structure BridgeParams where
  project : String
  owner : String
  baseURL : String
  credPrefix : String
  tokenRaw : String
  url : String

/-- External collaborators of `Configure`.  `userIdentity` models
`repo.GetUserIdentity` (`.ok none` is `identity.ErrNoIdentitySet`, which
line 69 tolerates; `.error` any other failure).  `loadCredWithMatching`
models `auth.LoadWithPrefix`.  `getProject` models
`buildClient(baseURL, token)` followed by `client.Projects.GetProject`
on a project path, returning the numeric project id.  The credential
store is an in-memory list (`auth.Store` is modelled as infallible
append). -/
structure Env where
  remotes : Except Unit (List (String × String))
  userIdentity : Except Unit (Option String)
  loadCredWithMatching : String → Except Unit Credential
  store : List Credential
  getProject : String → String → String → Except Unit Nat
  stdin : List String

/-- Outcome of a Go function returning `(value, error)` in a program
that may also panic. -/
inductive GoResult (α : Type)
  | ok (a : α)
  | error (e : ConfError)
  | panicked
deriving DecidableEq

/-- Sequencing of early-returning Go statements. -/
def gBind : GoResult α → (α → GoResult β) → GoResult β
  | .panicked, _ => .panicked
  | .error e, _ => .error e
  | .ok a, f => f a

def liftPrompt : GoPanicOr (Except ConfError α) → GoResult α
  | .panicked => .panicked
  | .ok (.error e) => .error e
  | .ok (.ok a) => .ok a

def liftExcept : Except ConfError α → GoResult α
  | .error e => .error e
  | .ok a => .ok a

def liftIdentity : Except Unit (Option String) → GoResult (Option String)
  | .error _ => .error .identityFailure
  | .ok u => .ok u

def liftPath : PathResult → GoResult String
  | .panicked => .panicked
  | .badProjectURL => .error .badProjectURLErr
  | .ok p => .ok p

def liftLookup : Except Unit Nat → GoResult Nat
  | .error _ => .error .remoteLookupFailed
  | .ok n => .ok n

def liftValidate : Except String Unit → GoResult Unit
  | .error _ => .error .invalidConfiguration
  | .ok _ => .ok ()

/-- Lines 42-62 of `Configure`: the guard against a credential parameter
without a URL, the defaulting of an empty URL parameter to
`defaultBaseURL` (lines 46-48), and the `switch` choosing between the
explicit parameter and the terminal prompt. -/
def resolveURLStage (env : Env) (params : BridgeParams) :
    GoResult (String × List String) :=
  if (params.credPrefix ≠ "" ∨ params.tokenRaw ≠ "") ∧ params.url = "" then
    .error .missingURLForCredential
  else
    let urlParam := if params.url = "" then defaultBaseURL else params.url
    if urlParam ≠ "" then .ok (urlParam, env.stdin)
    else liftPrompt (promptURL env.remotes env.stdin)

/-- Lines 81-97 of `Configure`: the credential-resolution `switch`. -/
def resolveCredStage (env : Env) (params : BridgeParams)
    (user : Option String) (userId : String) (stdin : List String) :
    Except ConfError (Credential × List String) :=
  if params.credPrefix ≠ "" then
    match env.loadCredWithMatching params.credPrefix with
    | .error _ => .error .credentialLoad
    | .ok cred =>
      match user with
      | some uid =>
        if cred.userId ≠ uid then .error .credentialUserMismatch
        else .ok (cred, stdin)
      | none => .ok (cred, stdin)
  else if params.tokenRaw ≠ "" then
    .ok (newToken userId params.tokenRaw target, stdin)
  else
    promptTokenOptions env.store userId stdin

/-- `validateProjectURL` (lines 321-338): normalize the path, then one
remote lookup through the authenticated client. -/
def validateProjectURL (lookup : String → String → String → Except Unit Nat)
    (baseURL url tokenValue : String) : GoResult Nat :=
  gBind (liftPath (getProjectPath url)) fun projectPath =>
  liftLookup (lookup baseURL tokenValue projectPath)

/-- The Configuration assembled at lines 110-112. -/
def assembleConf (id : Nat) (baseURL : String) : List (String × String) :=
  [(configKeyTarget, target), (keyProjectID, toString id), (keyGitlabBaseUrl, baseURL)]

/-- `ValidateConfig` (lines 130-142). -/
def ValidateConfig (conf : List (String × String)) : Except String Unit :=
  match conf.lookup configKeyTarget with
  | none => .error ("missing " ++ configKeyTarget ++ " key")
  | some v =>
    if v ≠ target then .error ("unexpected target name: " ++ v)
    else
      match conf.lookup keyProjectID with
      | none => .error ("missing " ++ keyProjectID ++ " key")
      | some _ => .ok ()

/-- `userId` computed at lines 74-77: the placeholder unless an identity
is set. -/
def userIdOf : Option String → String
  | none => defaultUserId
  | some uid => uid

/-- `Configure` (lines 31-128).  Returns the assembled Configuration and
the credential store after the persistence step of lines 119-125. -/
def Configure (env : Env) (params : BridgeParams) :
    GoResult (List (String × String) × List Credential) :=
  gBind (resolveURLStage env params) fun us =>
  if goHasPrefixStr us.1 params.baseURL = false then .error .baseURLMismatch
  else
  gBind (liftIdentity env.userIdentity) fun user =>
  gBind (liftExcept (resolveCredStage env params user (userIdOf user) us.2)) fun cs =>
  if cs.1.kind ≠ CredentialKind.token then .error .onlyTokenCredentials
  else
  gBind (validateProjectURL env.getProject params.baseURL us.1 cs.1.value) fun id =>
  let conf := assembleConf id params.baseURL
  gBind (liftValidate (ValidateConfig conf)) fun _ =>
  let store1 := if idExist env.store cs.1.id then env.store else env.store ++ [cs.1]
  .ok (conf, store1)

/-- Number of stored credentials carrying a given identifier. -/
def countId (store : List Credential) (i : String) : Nat :=
  (store.filter fun c => decide (c.id = i)).length

/-! ## Concrete fixtures used by witnesses and counterexamples -/

def envBase : Env :=
  { remotes := .ok []
    userIdentity := .ok (some "alice")
    loadCredWithMatching := fun _ => .ok ⟨.token, "alice", target, "storedsecret"⟩
    store := []
    getProject := fun _ _ _ => .ok 42
    stdin := [] }

def paramsBoth : BridgeParams :=
  ⟨"", "", "https://gitlab.example.com", "abc123", "rawtok",
   "https://gitlab.example.com/group/project"⟩

def paramsEmpty : BridgeParams := ⟨"", "", "", "", "", ""⟩

def envDiscovery : Env :=
  { envBase with remotes := .ok [("origin", "https://gitlab.com/foo/bar")], stdin := ["1"] }

def paramsRawToken : BridgeParams :=
  ⟨"", "", "https://gitlab.example.com", "", "12345678901234567890",
   "https://gitlab.example.com/group/project"⟩

def confRawToken : List (String × String) :=
  assembleConf 42 "https://gitlab.example.com"

def storeRawToken : List Credential :=
  [newToken "alice" "12345678901234567890" target]

def credA : Credential := ⟨.token, "alice", target, "aaaa"⟩

def credB : Credential := ⟨.token, "alice", target, "bbbb"⟩

/-! ## General helper lemmas -/

theorem gBind_eq_ok {α β : Type} {x : GoResult α} {f : α → GoResult β} {b : β} :
    gBind x f = .ok b ↔ ∃ a, x = .ok a ∧ f a = .ok b := by
  cases x <;> simp [gBind]

theorem ite_error_eq_ok {α : Type} {c : Prop} [Decidable c] {e : ConfError}
    {x : GoResult α} {b : α} :
    (if c then GoResult.error e else x) = .ok b ↔ ¬c ∧ x = .ok b := by
  split <;> simp_all

/-- Lines 42-44 make any credential parameter without a URL an
immediate failure, independent of every collaborator. -/
theorem configure_error_of_missing_url {env : Env} {params : BridgeParams}
    (hcred : params.credPrefix ≠ "" ∨ params.tokenRaw ≠ "") (hurl : params.url = "") :
    Configure env params = .error .missingURLForCredential := by
  have h : resolveURLStage env params = .error .missingURLForCredential := by
    unfold resolveURLStage
    rw [if_pos ⟨hcred, hurl⟩]
  unfold Configure
  rw [h]
  rfl

/-- With a nonempty URL parameter the URL stage returns it directly and
reads nothing. -/
theorem resolveURLStage_ok_of_url {env : Env} {params : BridgeParams}
    (hu : params.url ≠ "") :
    resolveURLStage env params = .ok (params.url, env.stdin) := by
  unfold resolveURLStage
  rw [if_neg fun hc => hu hc.2]
  simp [hu]

/-- The credential stage under the raw-token strategy: a fresh token,
no store access. -/
theorem resolveCredStage_raw {env : Env} {params : BridgeParams}
    {user : Option String} {userId : String} {stdin : List String}
    (hpfx : params.credPrefix = "") (hraw : params.tokenRaw ≠ "") :
    resolveCredStage env params user userId stdin =
      .ok (newToken userId params.tokenRaw target, stdin) := by
  unfold resolveCredStage
  rw [if_neg (by simp [hpfx]), if_pos hraw]

/-- The Configuration assembled at lines 110-112 always passes
`ValidateConfig`. -/
theorem validateConfig_assembleConf (id : Nat) (b : String) :
    ValidateConfig (assembleConf id b) = .ok () := rfl

theorem idExist_append_self (s : List Credential) (c : Credential) :
    idExist (s ++ [c]) c.id = true := by
  simp [idExist, List.any_append]

theorem idExist_iff_countId_ne_zero (s : List Credential) (i : String) :
    idExist s i = true ↔ countId s i ≠ 0 := by
  unfold idExist countId
  rw [List.any_eq_true]
  constructor
  · rintro ⟨c, hc, hp⟩ hlen
    rw [List.length_eq_zero] at hlen
    have hm : c ∈ s.filter (fun c => decide (c.id = i)) := List.mem_filter.mpr ⟨hc, hp⟩
    rw [hlen] at hm
    cases hm
  · intro hne
    have hfil : s.filter (fun c => decide (c.id = i)) ≠ [] := by
      intro he
      exact hne (by rw [he]; rfl)
    obtain ⟨c, hc⟩ := List.exists_mem_of_ne_nil _ hfil
    have hm := List.mem_filter.mp hc
    exact ⟨c, hm.1, hm.2⟩

theorem countId_append_self (s : List Credential) (c : Credential) :
    countId (s ++ [c]) c.id = countId s c.id + 1 := by
  unfold countId
  rw [List.filter_append, List.length_append]
  simp

/-! ## Claim C7 -/

/-- C7: supplying a credential-selection parameter (prefix or raw token)
without an explicit project URL makes `Configure` fail with the
missing-URL error for every environment — hence before any network
call, store access or interactive prompt, since the result does not
depend on any collaborator. -/
theorem configure_missing_url_fails_first (env : Env) (params : BridgeParams)
    (hcred : params.credPrefix ≠ "" ∨ params.tokenRaw ≠ "") (hurl : params.url = "") :
    Configure env params = .error .missingURLForCredential :=
  configure_error_of_missing_url hcred hurl

/-- Witness for C7: a raw token with an empty URL parameter. -/
theorem configure_missing_url_fails_first_witness :
    Configure envBase ⟨"", "", "", "", "sometoken", ""⟩ =
      .error .missingURLForCredential :=
  configure_missing_url_fails_first envBase ⟨"", "", "", "", "sometoken", ""⟩
    (Or.inr (by decide)) rfl

/-! ## Claim C1 -/

/-- C1 (refuting the claimed interactive stage): when the caller
supplies no explicit project URL (and no credential parameter), the URL
stage returns `defaultBaseURL` with stdin untouched, for every
environment — `promptURL` and remote discovery are never reached,
because lines 46-48 overwrite the empty URL parameter before the
`switch`. -/
theorem resolveURLStage_defaults_skips_discovery (env : Env) (params : BridgeParams)
    (hc : params.credPrefix = "") (ht : params.tokenRaw = "") (hurl : params.url = "") :
    resolveURLStage env params = .ok (defaultBaseURL, env.stdin) := by
  unfold resolveURLStage
  rw [if_neg (by simp [hc, ht])]
  simp [hurl, defaultBaseURL]

/-- Witness for C1: even with a discoverable gitlab.com remote and an
operator ready to answer on stdin, the stage returns the default base
URL and consumes no input. -/
theorem resolveURLStage_defaults_skips_discovery_witness :
    resolveURLStage envDiscovery paramsEmpty = .ok (defaultBaseURL, ["1"]) :=
  resolveURLStage_defaults_skips_discovery envDiscovery paramsEmpty rfl rfl rfl

/-! ## Claim C2 -/

/-- C2 (refuting the claimed SSH/HTTPS agreement): the scp-style SSH
reference of the spec's example is rejected with the bad-project-URL
error — after the `git@` → `https://` rewrite the URL has the
non-numeric port `:group` — while the HTTPS reference of the same
project normalizes to `"group/project"`. -/
theorem getProjectPath_ssh_example_rejected :
    getProjectPath "git@gitlab.example.com:group/project.git" = .badProjectURL ∧
    getProjectPath "https://gitlab.example.com/group/project.git" = .ok "group/project" :=
  ⟨rfl, rfl⟩

/-! ## Claim C10 -/

/-- C10: whenever the cleaned reference parses as a URL with an empty
path component, `getProjectPath` panics (the unguarded `Path[1:]`)
instead of returning the bad-reference error. -/
theorem getProjectPath_empty_path_panics (s : String) (u : GoURL)
    (hparse : goURLParse (cleanProjectUrl s) = some u) (hpath : u.path = "") :
    getProjectPath s = .panicked := by
  unfold getProjectPath
  rw [hparse]
  simp [hpath]

/-- Witness for C10: `"https://gitlab.com"` parses with an empty path
and makes `getProjectPath` panic. -/
theorem getProjectPath_empty_path_panics_witness :
    getProjectPath "https://gitlab.com" = .panicked :=
  getProjectPath_empty_path_panics "https://gitlab.com" ⟨"https", "", "gitlab.com", ""⟩
    (by decide) rfl

/-! ## Claim C3 -/

/-- C3 counterexample: a remote hosted on `github.com` normalizes to a
path on a foreign host, yet remote discovery keeps it (prefixed with
the literal `"gitlab.com"`, with no separator) instead of filtering it
out. -/
theorem discovery_keeps_foreign_host :
    getValidGitlabRemoteURLs [("origin", "https://github.com/foo/bar")] =
      .ok ["gitlab.comfoo/bar"] ∧
    (goURLParse "https://github.com/foo/bar").map GoURL.host = some "github.com" :=
  ⟨rfl, rfl⟩

/-- C3 amended: discovery performs no host filtering — every remote
whose reference normalizes successfully contributes the candidate
`"gitlab.com" ++ path` (so every candidate carries the literal host
prefix), regardless of which host the reference actually points at. -/
theorem discovery_prefixes_without_host_filter (remotes : List (String × String))
    (out : List String) (h : getValidGitlabRemoteURLs remotes = .ok out) :
    (∀ c ∈ out, ∃ n u, (n, u) ∈ remotes ∧
       ∃ p, getProjectPath u = .ok p ∧ c = "gitlab.com" ++ p) ∧
    (∀ n u, (n, u) ∈ remotes → ∀ p, getProjectPath u = .ok p →
       ("gitlab.com" ++ p) ∈ out) := by
  induction remotes generalizing out with
  | nil =>
    simp only [getValidGitlabRemoteURLs, GoPanicOr.ok.injEq] at h
    subst h
    constructor
    · intro c hc
      cases hc
    · intro n u hu
      cases hu
  | cons hd rest ih =>
    obtain ⟨n0, u0⟩ := hd
    simp only [getValidGitlabRemoteURLs] at h
    cases hgp : getProjectPath u0 with
    | panicked => rw [hgp] at h; cases h
    | badProjectURL =>
      rw [hgp] at h
      obtain ⟨ih1, ih2⟩ := ih out h
      constructor
      · intro c hc
        obtain ⟨n, u, hmem, p, hp, hcp⟩ := ih1 c hc
        exact ⟨n, u, List.mem_cons_of_mem _ hmem, p, hp, hcp⟩
      · intro n u hu p hp
        rcases List.mem_cons.mp hu with heq | hmem
        · cases heq
          rw [hgp] at hp
          cases hp
        · exact ih2 n u hmem p hp
    | ok path =>
      rw [hgp] at h
      cases hrec : getValidGitlabRemoteURLs rest with
      | panicked => rw [hrec] at h; cases h
      | ok urls =>
        rw [hrec] at h
        simp only [GoPanicOr.ok.injEq] at h
        subst h
        obtain ⟨ih1, ih2⟩ := ih urls hrec
        constructor
        · intro c hc
          rcases List.mem_cons.mp hc with heq | hmem
          · exact ⟨n0, u0, List.mem_cons_self _ _, path, hgp, heq⟩
          · obtain ⟨n, u, hmem', p, hp, hcp⟩ := ih1 c hmem
            exact ⟨n, u, List.mem_cons_of_mem _ hmem', p, hp, hcp⟩
        · intro n u hu p hp
          rcases List.mem_cons.mp hu with heq | hmem
          · cases heq
            rw [hgp] at hp
            cases hp
            exact List.mem_cons_self _ _
          · exact List.mem_cons_of_mem _ (ih2 n u hmem p hp)

/-- Witness for C3's amended statement: with a github-hosted remote and
a malformed one, the github-hosted remote's candidate is in the
discovery output. -/
theorem discovery_prefixes_without_host_filter_witness :
    ("gitlab.com" ++ "foo/bar") ∈ ["gitlab.comfoo/bar"] :=
  (discovery_prefixes_without_host_filter
      [("origin", "https://github.com/foo/bar"), ("weird", ":badurl")]
      ["gitlab.comfoo/bar"] (by rfl)).2
    "origin" "https://github.com/foo/bar" (by simp) "foo/bar" rfl

/-! ## Claim C4 -/

/-- C4 counterexample: a call supplying both a credential prefix and a
raw token (together with a project URL) does not fail — `Configure`
succeeds and silently uses the stored credential loaded through the
prefix, ignoring the raw token. -/
theorem configure_both_cred_params_succeeds :
    paramsBoth.credPrefix ≠ "" ∧ paramsBoth.tokenRaw ≠ "" ∧
    Configure envBase paramsBoth =
      .ok (assembleConf 42 "https://gitlab.example.com",
           [⟨.token, "alice", target, "storedsecret"⟩]) :=
  ⟨by decide, by decide, rfl⟩

/-- C4 amended: the strategies are tried in a fixed priority order with
no mutual-exclusion validation — whenever a credential prefix is
supplied, the raw-token parameter is ignored entirely: `Configure`
behaves exactly as if the raw token had not been passed. -/
theorem configure_prefix_overrides_raw (env : Env) (params : BridgeParams)
    (h : params.credPrefix ≠ "") :
    Configure env params = Configure env { params with tokenRaw := "" } := by
  have hURL : resolveURLStage env { params with tokenRaw := "" } =
      resolveURLStage env params := by
    unfold resolveURLStage
    by_cases hu : params.url = "" <;> simp [hu, h]
  have hCred : ∀ user userId stdin,
      resolveCredStage env { params with tokenRaw := "" } user userId stdin =
        resolveCredStage env params user userId stdin := by
    intro user userId stdin
    unfold resolveCredStage
    rw [if_pos h, if_pos h]
  unfold Configure
  rw [hURL]
  cases resolveURLStage env params with
  | panicked => rfl
  | error e => rfl
  | ok us =>
    simp only [gBind, hCred]

/-- Witness for C4's amended statement at the concrete
both-parameters call. -/
theorem configure_prefix_overrides_raw_witness :
    Configure envBase paramsBoth = Configure envBase { paramsBoth with tokenRaw := "" } :=
  configure_prefix_overrides_raw envBase paramsBoth (by decide)

/-! ## Claim C5 -/

/-- C5 counterexample: `promptToken` accepts a 21-character entry whose
last character is `!` — not an ASCII alphanumeric-or-hyphen token —
because the source pattern `^[a-zA-Z0-9\-]{20}` has no end anchor. -/
theorem promptToken_accepts_garbage_tail :
    promptToken ["aaaaaaaaaaaaaaaaaaaa!"] = .ok ("aaaaaaaaaaaaaaaaaaaa!", []) ∧
    ("aaaaaaaaaaaaaaaaaaaa!".toList.all isTokenClassChar) = false :=
  ⟨rfl, rfl⟩

theorem matchTokenAux_iff (n : Nat) (cs : List Char) :
    matchTokenAux n cs = true ↔
      n ≤ cs.length ∧ (cs.take n).all isTokenClassChar = true := by
  induction n generalizing cs with
  | zero => simp [matchTokenAux]
  | succ n ih =>
    cases cs with
    | nil => simp [matchTokenAux]
    | cons c cs' =>
      cases hc : isTokenClassChar c with
      | false => simp [matchTokenAux, hc]
      | true => simp [matchTokenAux, hc, ih, Nat.succ_le_succ_iff]

/-- C5 amended: interactive token entry accepts exactly the strings
whose first 20 characters exist and are ASCII alphanumeric-or-hyphen —
the remainder of the string is unconstrained — re-prompting on any
other input; `"abcdefghij0123456789"` is accepted, `"short"` and
`"has spaces!!"` are rejected. -/
theorem promptToken_first20_rule :
    (∀ s : String, tokenRegexMatches s = true ↔
       20 ≤ s.toList.length ∧ (s.toList.take 20).all isTokenClassChar = true) ∧
    (∀ line rest, tokenRegexMatches (goTrimSpace line) = true →
       promptToken (line :: rest) = .ok (goTrimSpace line, rest)) ∧
    (∀ line rest, tokenRegexMatches (goTrimSpace line) = false →
       promptToken (line :: rest) = promptToken rest) ∧
    promptToken ["short", "has spaces!!", "abcdefghij0123456789"] =
      .ok ("abcdefghij0123456789", []) := by
  refine ⟨fun s => matchTokenAux_iff 20 s.toList, ?_, ?_, rfl⟩
  · intro line rest hm
    simp [promptToken, hm]
  · intro line rest hm
    simp [promptToken, hm]

/-- Witness for C5's amended statement: the reject-then-accept loop at
concrete inputs. -/
theorem promptToken_first20_rule_witness :
    promptToken ["has spaces!!", "abcdefghij0123456789"] =
      .ok ("abcdefghij0123456789", []) := by
  rw [promptToken_first20_rule.2.2.1 "has spaces!!" _ (by decide)]
  exact promptToken_first20_rule.2.1 "abcdefghij0123456789" [] (by decide)

/-! ## Claim C6 -/

/-- C6 counterexample: a configuration that lacks the baseUrl key (one
of the claim's required keys) still passes `ValidateConfig` — only the
target and projectId keys are checked. -/
theorem validateConfig_accepts_missing_baseUrl :
    ValidateConfig [(configKeyTarget, target), (keyProjectID, "42")] = .ok () ∧
    ([(configKeyTarget, target), (keyProjectID, "42")] : List (String × String)).lookup
        keyGitlabBaseUrl = none :=
  ⟨rfl, rfl⟩

/-- C6 amended: `ValidateConfig` succeeds exactly when the target key is
present with the exact target tag and the projectId key is present —
the baseUrl key is never checked; and every Configuration returned by a
successful `Configure` run carries exactly the keys
`{target, projectId, baseUrl}` in that order. -/
theorem validateConfig_checked_keys :
    (∀ conf : List (String × String), ValidateConfig conf = .ok () ↔
       conf.lookup configKeyTarget = some target ∧
       (conf.lookup keyProjectID).isSome = true) ∧
    (∀ (env : Env) (params : BridgeParams) conf store1,
       Configure env params = .ok (conf, store1) →
       conf.map Prod.fst = [configKeyTarget, keyProjectID, keyGitlabBaseUrl]) := by
  constructor
  · intro conf
    unfold ValidateConfig
    cases h1 : conf.lookup configKeyTarget with
    | none => simp
    | some v =>
      by_cases hv : v = target
      · subst hv
        simp only [ne_eq, not_true_eq_false, if_false, if_neg]
        cases h2 : conf.lookup keyProjectID <;> simp
      · simp [hv]
  · intro env params conf store1 h
    unfold Configure at h
    simp only [gBind_eq_ok, ite_error_eq_ok] at h
    obtain ⟨us, -, -, user, -, cs, -, -, id, -, u, -, h⟩ := h
    have hconf : assembleConf id params.baseURL = conf := by
      have := congrArg (fun r => match r with
        | GoResult.ok p => p.1
        | _ => []) h
      simpa using this
    rw [← hconf]
    rfl

/-- Witness for C6's amended statement: the key list of a concrete
successful run's Configuration. -/
theorem validateConfig_checked_keys_witness :
    confRawToken.map Prod.fst = [configKeyTarget, keyProjectID, keyGitlabBaseUrl] :=
  validateConfig_checked_keys.2 envBase paramsRawToken confRawToken storeRawToken rfl

/-! ## Claim C8 -/

/-- C8: in the selection loop with a nonempty filtered credential list,
a non-numeric line or an index outside `[1, N+1]` re-prompts, index 1
falls through to token entry, and an index `k` in `[2, N+1]` returns the
`(k-2)`-th credential in identifier-ascending order; concretely, inputs
`"abc"`, `"99"`, `"2"` against two stored tokens reject twice and then
return the first sorted token. -/
theorem promptTokenOptions_selection :
    (∀ store uid line rest, authList store uid target ≠ [] →
      ((goAtoi (goTrimSpace line) = none →
         promptTokenOptions store uid (line :: rest) =
           promptTokenOptions store uid rest) ∧
       (∀ k : Int, goAtoi (goTrimSpace line) = some k →
         (k < 1 ∨ k > (authList store uid target).length + 1) →
         promptTokenOptions store uid (line :: rest) =
           promptTokenOptions store uid rest) ∧
       (goAtoi (goTrimSpace line) = some 1 →
         promptTokenOptions store uid (line :: rest) = tokenEntry uid rest) ∧
       (∀ k : Int, goAtoi (goTrimSpace line) = some k →
         2 ≤ k → k ≤ (authList store uid target).length + 1 →
         promptTokenOptions store uid (line :: rest) =
           .ok ((sortById (authList store uid target)).getD (k.toNat - 2)
                  (newToken "" "" ""), rest)))) ∧
    promptTokenOptions [credB, credA] "alice" ["abc", "99", "2"] = .ok (credA, []) := by
  constructor
  · intro store uid line rest hne
    have hempty : (authList store uid target).isEmpty = false := by
      cases hl : authList store uid target
      · exact absurd hl hne
      · rfl
    refine ⟨?_, ?_, ?_, ?_⟩
    · intro ha
      simp [promptTokenOptions, hempty, ha]
    · intro k ha hk
      simp [promptTokenOptions, hempty, ha, hk]
    · intro ha
      simp [promptTokenOptions, hempty, ha]
    · intro k ha h2 hub
      have hcond : ¬(k < 1 ∨ k > ((authList store uid target).length : Int) + 1) := by
        omega
      have hone : ¬(k = 1) := by omega
      simp [promptTokenOptions, hempty, ha, hcond, hone]
  · rfl

/-- Witness for C8: an out-of-range rejection followed by selecting the
second sorted token. -/
theorem promptTokenOptions_selection_witness :
    promptTokenOptions [credB, credA] "alice" ["99", "3"] = .ok (credB, []) := by
  have h1 := (promptTokenOptions_selection.1 [credB, credA] "alice" "99" ["3"]
    (by decide)).2.1 99 (by decide) (by decide)
  have h2 := ((promptTokenOptions_selection.1 [credB, credA] "alice" "3" []
    (by decide)).2.2.2) 3 (by decide) (by decide) (by decide)
  rw [h1, h2]
  rfl

/-! ## Claim C9 -/

theorem newToken_kind (u v t : String) : (newToken u v t).kind = .token := rfl

theorem newToken_value (u v t : String) : (newToken u v t).value = v := rfl

/-- C9: a successful raw-token `Configure` run persists its credential
exactly once — re-running the whole configuration with the same token
against the resulting store yields the same Configuration and leaves
the store unchanged, and the count of entries with the credential's
identifier after the first run is one when the identifier was absent
before (unchanged otherwise), because the identifier is a pure function
of the token's content. -/
theorem configure_persistence_idempotent (env : Env) (params : BridgeParams)
    (user : Option String) (conf : List (String × String)) (store1 : List Credential)
    (hpfx : params.credPrefix = "") (hraw : params.tokenRaw ≠ "")
    (hid : env.userIdentity = .ok user)
    (h : Configure env params = .ok (conf, store1)) :
    Configure { env with store := store1 } params = .ok (conf, store1) ∧
    countId store1 (newToken (userIdOf user) params.tokenRaw target).id =
      (if countId env.store (newToken (userIdOf user) params.tokenRaw target).id = 0
       then 1
       else countId env.store (newToken (userIdOf user) params.tokenRaw target).id) := by
  have hu : params.url ≠ "" := by
    intro hu
    rw [configure_error_of_missing_url (Or.inr hraw) hu] at h
    cases h
  unfold Configure at h
  rw [resolveURLStage_ok_of_url hu] at h
  dsimp only [gBind] at h
  cases hpre : goHasPrefixStr params.url params.baseURL with
  | false =>
    rw [hpre] at h
    simp at h
  | true =>
    rw [hpre] at h
    rw [if_neg (by simp)] at h
    rw [hid] at h
    dsimp only [liftIdentity, gBind] at h
    rw [resolveCredStage_raw hpfx hraw] at h
    dsimp only [liftExcept, gBind] at h
    rw [if_neg (by simp [newToken_kind])] at h
    dsimp only [newToken_value] at h
    cases hval : validateProjectURL env.getProject params.baseURL params.url
        params.tokenRaw with
    | panicked =>
      rw [hval] at h
      cases h
    | error e =>
      rw [hval] at h
      cases h
    | ok id =>
      rw [hval] at h
      dsimp only [gBind] at h
      rw [validateConfig_assembleConf] at h
      dsimp only [liftValidate, gBind] at h
      simp only [GoResult.ok.injEq, Prod.mk.injEq] at h
      obtain ⟨hconf, hstore⟩ := h
      constructor
      · unfold Configure
        rw [@resolveURLStage_ok_of_url { env with store := store1 } params hu]
        dsimp only [gBind]
        rw [hpre]
        rw [if_neg (by simp)]
        rw [show ({ env with store := store1 } : Env).userIdentity = env.userIdentity
              from rfl, hid]
        dsimp only [liftIdentity, gBind]
        rw [resolveCredStage_raw hpfx hraw]
        dsimp only [liftExcept, gBind]
        rw [if_neg (by simp [newToken_kind])]
        dsimp only [newToken_value]
        rw [show ({ env with store := store1 } : Env).getProject = env.getProject
              from rfl, hval]
        dsimp only [gBind]
        rw [validateConfig_assembleConf]
        dsimp only [liftValidate, gBind]
        have hex : idExist store1 (newToken (userIdOf user) params.tokenRaw target).id
            = true := by
          cases hie : idExist env.store
              (newToken (userIdOf user) params.tokenRaw target).id with
          | false =>
            rw [hie] at hstore
            simp only [Bool.false_eq_true, if_false] at hstore
            rw [← hstore]
            exact idExist_append_self _ _
          | true =>
            rw [hie] at hstore
            simp only [if_pos] at hstore
            rw [← hstore]
            exact hie
        rw [hex]
        simp [hconf]
      · cases hie : idExist env.store
            (newToken (userIdOf user) params.tokenRaw target).id with
        | false =>
          rw [hie] at hstore
          simp only [Bool.false_eq_true, if_false] at hstore
          have h0 : countId env.store
              (newToken (userIdOf user) params.tokenRaw target).id = 0 := by
            by_contra hnz
            have := (idExist_iff_countId_ne_zero env.store _).mpr hnz
            rw [hie] at this
            cases this
          rw [← hstore, h0, countId_append_self, h0]
          simp
        | true =>
          rw [hie] at hstore
          simp only [if_pos] at hstore
          have hnz := (idExist_iff_countId_ne_zero env.store
            (newToken (userIdOf user) params.tokenRaw target).id).mp hie
          rw [← hstore]
          simp [hnz]

/-- Witness for C9: a concrete raw-token run starting from an empty
store: the second run returns the same Configuration and store, and the
store holds the credential exactly once. -/
theorem configure_persistence_idempotent_witness :
    Configure { envBase with store := storeRawToken } paramsRawToken =
      .ok (confRawToken, storeRawToken) ∧
    countId storeRawToken
        (newToken (userIdOf (some "alice")) paramsRawToken.tokenRaw target).id =
      (if countId envBase.store
            (newToken (userIdOf (some "alice")) paramsRawToken.tokenRaw target).id = 0
       then 1
       else countId envBase.store
            (newToken (userIdOf (some "alice")) paramsRawToken.tokenRaw target).id) :=
  configure_persistence_idempotent envBase paramsRawToken (some "alice")
    confRawToken storeRawToken rfl (by decide) rfl rfl

end GitBugGitlab
